import Mathlib

/-!
Verification development for the BookWeaver backend.

The development shallowly embeds the three core subsystems:
  * the character Knowledge Base Manager (`pipelines/character_analysis.py`
    together with the data model in `core/data_models.py`),
  * the Scenario Synthesis Orchestrator (`pipelines/scenario_generation.py`),
  * the Audio Timeline Assembler (`utils/audio_merger.py`).

Python dictionaries are embedded as insertion-ordered association lists,
Python string truthiness is modelled explicitly, and pydantic's
`exclude_unset` semantics are modelled by `Option` fields on patches
(`none` = the field was absent from the update payload).  Calls to the
LLM collaborators are parametrised as oracle functions, and the file
system is parametrised as a lookup function, so that every pipeline
becomes a pure, executable function of its inputs.
-/

namespace BookWeaver

/-! ### Ordered dictionaries (Python `dict` embedding) -/

/-- First-match lookup in an insertion-ordered association list. -/
def dictGet? {κ α : Type} [DecidableEq κ] (d : List (κ × α)) (k : κ) : Option α :=
  match d with
  | [] => none
  | kv :: rest => if kv.1 = k then some kv.2 else dictGet? rest k

/-- Key-membership test, `k in d` in Python. -/
def dictHasKey {κ α : Type} [DecidableEq κ] (d : List (κ × α)) (k : κ) : Bool :=
  (dictGet? d k).isSome

/-- Python `d[k] = v`: replace the value in place when the key exists,
append the binding at the end otherwise (dicts preserve insertion order). -/
def dictSet {κ α : Type} [DecidableEq κ] (d : List (κ × α)) (k : κ) (v : α) : List (κ × α) :=
  if dictHasKey d k then
    d.map (fun kv => if kv.1 = k then (k, v) else kv)
  else
    d ++ [(k, v)]

/-- Python `d.update(other)`: set every binding of `other`, in order. -/
def dictUpdate {κ α : Type} [DecidableEq κ] (d other : List (κ × α)) : List (κ × α) :=
  other.foldl (fun acc kv => dictSet acc kv.1 kv.2) d

/-- Build a dict from a list of bindings (a Python dict comprehension:
first-occurrence order, last value wins). -/
def dictOfList {κ α : Type} [DecidableEq κ] (l : List (κ × α)) : List (κ × α) :=
  l.foldl (fun acc kv => dictSet acc kv.1 kv.2) []

/-! ### Python string helpers -/

/-- Code-point lexicographic comparison of character lists, as Python
compares strings. -/
def charListLt : List Char → List Char → Bool
  | [], [] => false
  | [], _ :: _ => true
  | _ :: _, [] => false
  | a :: as, b :: bs => if a < b then true else if b < a then false else charListLt as bs

/-- Python `a < b` on strings. -/
def pyStrLt (a b : String) : Bool := charListLt a.data b.data

/-- Insert a string into a list sorted by `pyStrLt`. -/
def insertSorted (x : String) : List String → List String
  | [] => [x]
  | y :: ys => if pyStrLt y x then y :: insertSorted x ys else x :: y :: ys

/-- Python `sorted` on a list of strings (insertion sort; the comparison
is the code-point order Python uses). -/
def pySorted : List String → List String
  | [] => []
  | x :: xs => insertSorted x (pySorted xs)

/-- Worker for `dedupFirst`, carrying the strings already emitted. -/
def dedupFirstAux (seen : List String) : List String → List String
  | [] => []
  | x :: xs => if x ∈ seen then dedupFirstAux seen xs else x :: dedupFirstAux (x :: seen) xs

/-- Keep the first occurrence of every string, dropping later duplicates
(the element set of Python's `set(...)`). -/
def dedupFirst (l : List String) : List String := dedupFirstAux [] l

/-- Python truthiness of `Optional[str]`: `None` and `""` are falsy. -/
def optStrTruthy : Option String → Bool
  | none => false
  | some s => s ≠ ""

/-- Python `not s.strip()`: true iff the string has no non-whitespace
character. -/
def stripIsEmpty (s : String) : Bool := s.data.all Char.isWhitespace

/-! ### Knowledge Base Manager: data model (`core/data_models.py`) -/

/-- Embedding of `Character` (`core/data_models.py`).  Its pydantic model
declares exactly the fields below — in particular it declares *no*
`first_mention` field, so an extra `first_mention=...` keyword passed to
the constructor is silently discarded by pydantic's default
`extra='ignore'` policy.  UUIDs are embedded as `Nat` drawn from a
freshness counter. -/
structure Character where
  id : Nat
  name : String
  description : String
  spoiler_free_description : String
  aliases : List String
  chapter_mentions : List (String × String)
deriving DecidableEq

/-- Embedding of `CharacterArchive`: the ordered list of characters. -/
structure CharacterArchive where
  characters : List Character
deriving DecidableEq

/-- Embedding of `CharacterPatch`.  Every field is optional in the JSON
payload; `none` models a field that was absent (pydantic
`exclude_unset=True` later drops it from the update dictionary), and
`some v` models a field set to the JSON value `v`. -/
structure CharacterPatch where
  id : Option Nat
  name : Option String := none
  description : Option String := none
  spoiler_free_description : Option String := none
  aliases : Option (List String) := none
  chapter_mentions : Option (List (String × String)) := none
deriving DecidableEq

/-- Embedding of `CharacterPatchList`. -/
structure CharacterPatchList where
  patches : List CharacterPatch
deriving DecidableEq

/-- Embedding of `CharacterReconResult`. -/
structure CharacterReconResult where
  mentioned_existing_character_ids : List Nat := []
  newly_discovered_names : List String := []
deriving DecidableEq

/-- Embedding of the `check_name_for_new_character` model validator on
`CharacterPatch`: when `id` is absent, a truthy `name` is required
(`values.get('id') is None and not values.get('name')` raises). -/
def check_name_for_new_character (p : CharacterPatch) : Bool :=
  !(p.id = none && !optStrTruthy p.name)

/-- Validation of a whole `CharacterPatchList`, as
`LLMService.call_for_pydantic` performs it: pydantic validates every
element, and a single failing patch fails the entire payload, in which
case `call_for_pydantic` catches the `ValidationError` and returns
`None`. -/
def validatePatchList (ps : List CharacterPatch) : Option CharacterPatchList :=
  if ps.all check_name_for_new_character then some ⟨ps⟩ else none

/-! ### Knowledge Base Manager: patch application
(`pipelines/character_analysis.py`, `CharacterAnalysisPipeline`) -/

/-- Merged alias update of `_apply_patch`:
`sorted(list(set(existing).union(set(new))))`. -/
def sortedUnion (existing new : List String) : List String :=
  pySorted (dedupFirst (existing ++ new))

/-- Placeholder description used for new characters,
`"Описание не предоставлено."`. -/
def placeholderDescription : String := "Описание не предоставлено."

/-- Python `x or placeholder` for an optional description field:
`None` and `""` fall back to the placeholder. -/
def orPlaceholder (o : Option String) : String :=
  match o with
  | none => placeholderDescription
  | some s => if s = "" then placeholderDescription else s

/-- Update branch of `_apply_patch` for an existing character: the patch
is dumped with `exclude_unset=True` and `id` excluded; a present,
non-empty alias list is replaced by the sorted union with the existing
aliases; present, non-empty chapter mentions are merged key-wise into the
existing map; every other present field (including an alias list or
mention map that is present but empty, which the special-merge guards
skip) overwrites the existing value via `model_copy`. -/
def applyUpdate (c : Character) (p : CharacterPatch) : Character :=
  { c with
    name := match p.name with
      | none => c.name
      | some nm => nm
    description := match p.description with
      | none => c.description
      | some d => d
    spoiler_free_description := match p.spoiler_free_description with
      | none => c.spoiler_free_description
      | some d => d
    aliases := match p.aliases with
      | none => c.aliases
      | some xs => if xs = [] then xs else sortedUnion c.aliases xs
    chapter_mentions := match p.chapter_mentions with
      | none => c.chapter_mentions
      | some m => if m = [] then m else dictUpdate c.chapter_mentions m }

/-- Creation branch of `_apply_patch`: a new `Character` is built from
the patch with a freshly minted id.  The source also passes
`first_mention=f"Том {vol}, Глава {chap}"` to the constructor, but the
`Character` model declares no `first_mention` field, so pydantic drops
that keyword argument — which is why `vol` and `chap` do not occur in
the record built here. -/
def mkNewCharacter (nm : String) (p : CharacterPatch) (vol chap : Nat) (freshId : Nat) :
    Character :=
  { id := freshId
    name := nm
    description := orPlaceholder p.description
    spoiler_free_description := orPlaceholder p.spoiler_free_description
    aliases := p.aliases.getD []
    chapter_mentions := p.chapter_mentions.getD [] }

/-- Build the `char_map` dictionary `{char.id: char for char in
archive.characters}`. -/
def buildCharMap (chars : List Character) : List (Nat × Character) :=
  chars.foldl (fun m c => dictSet m c.id c) []

/-- One iteration of the patch loop in `_apply_patch`, acting on the
state `(char_map, fresh-id counter)`.  `if patch.id and patch.id in
char_map` selects the update branch; `elif patch.id is None and
patch.name` selects the creation branch; anything else (an id that
matches no character, or a creation patch with a falsy name) is logged
and skipped. -/
def applyOnePatch (vol chap : Nat) (st : List (Nat × Character) × Nat)
    (p : CharacterPatch) : List (Nat × Character) × Nat :=
  match p.id with
  | some i =>
    match dictGet? st.1 i with
    | some c => (dictSet st.1 i (applyUpdate c p), st.2)
    | none => st
  | none =>
    match p.name with
    | some nm =>
      if nm = "" then st
      else
        let c := mkNewCharacter nm p vol chap st.2
        (dictSet st.1 c.id c, st.2 + 1)
    | none => st

/-- Embedding of `_apply_patch`: fold the patch list over the character
map and rebuild `archive.characters` from the map's values. -/
def applyPatchArchive (a : CharacterArchive) (pl : CharacterPatchList) (vol chap : Nat)
    (fresh : Nat) : CharacterArchive × Nat :=
  let st := pl.patches.foldl (applyOnePatch vol chap) (buildCharMap a.characters, fresh)
  (⟨st.1.map Prod.snd⟩, st.2)

/-- Placeholder mention text used by `_add_empty_mentions`. -/
def placeholderMention : String := "Персонаж упоминается в главе, но без значимых действий."

/-- Embedding of `_add_empty_mentions`: every character whose id was
mentioned receives a placeholder entry for the chapter, but only when no
entry for that chapter key is present yet. -/
def addEmptyMentions (a : CharacterArchive) (ids : List Nat) (chapterId : String) :
    CharacterArchive :=
  ⟨a.characters.map (fun c =>
    if c.id ∈ ids ∧ ¬ dictHasKey c.chapter_mentions chapterId then
      { c with chapter_mentions := dictSet c.chapter_mentions chapterId placeholderMention }
    else c)⟩

/-- Embedding of `_is_chapter_processed`: a chapter counts as processed
iff at least one character's chapter-mentions map contains its id. -/
def isChapterProcessed (a : CharacterArchive) (chapterId : String) : Bool :=
  a.characters.any (fun c => dictHasKey c.chapter_mentions chapterId)

/-- Embedding of `_filter_archive_by_ids`. -/
def filterArchiveByIds (a : CharacterArchive) (ids : List Nat) : List Character :=
  a.characters.filter (fun c => c.id ∈ ids)

/-- Chapter id string `f"vol_{vol_num}_chap_{chap_num}"`. -/
def chapterIdOf (vol chap : Nat) : String :=
  "vol_" ++ toString vol ++ "_chap_" ++ toString chap

/-! ### Knowledge Base Manager: book-level run
(`CharacterAnalysisPipeline.run`) -/

/-- One chapter of the input book: its volume number, chapter number and
text content (`chap_path.read_text`). -/
structure Chapter where
  vol : Nat
  chap : Nat
  text : String
deriving DecidableEq

/-- The two LLM collaborators of the character pipeline, parametrised as
deterministic oracles.  `recon` models `_perform_recon` (it may return
`none` when the call or schema validation fails); `operation` models the
raw, JSON-decoded patch list returned by `_perform_operation` *before*
pydantic validation, which `validatePatchList` applies. -/
structure KbmOracles where
  recon : CharacterArchive → String → Option CharacterReconResult
  operation : List Character → List String → String → Nat → Nat →
    Option (List CharacterPatch)

/-- One iteration of the chapter loop in `CharacterAnalysisPipeline.run`:
skip a chapter already processed, skip an empty chapter, run recon, skip
when recon finds nothing, then either apply the returned patches or fall
back to placeholder mentions when the patch call yields nothing. -/
def processChapter (o : KbmOracles) (st : CharacterArchive × Nat) (ch : Chapter) :
    CharacterArchive × Nat :=
  let cid := chapterIdOf ch.vol ch.chap
  if isChapterProcessed st.1 cid then st
  else if stripIsEmpty ch.text then st
  else
    match o.recon st.1 ch.text with
    | none => st
    | some r =>
      if r.mentioned_existing_character_ids = [] ∧ r.newly_discovered_names = [] then st
      else
        let relevant := filterArchiveByIds st.1 r.mentioned_existing_character_ids
        match (o.operation relevant r.newly_discovered_names ch.text ch.vol
            ch.chap).bind validatePatchList with
        | none => (addEmptyMentions st.1 r.mentioned_existing_character_ids cid, st.2)
        | some pl =>
          if pl.patches = [] then
            (addEmptyMentions st.1 r.mentioned_existing_character_ids cid, st.2)
          else applyPatchArchive st.1 pl ch.vol ch.chap st.2

/-- Embedding of `CharacterAnalysisPipeline.run`: a left-to-right scan
over the book's chapters threading the archive and the fresh-id counter
(the counter models `uuid4`, which never repays an id already minted). -/
def runBook (o : KbmOracles) (chapters : List Chapter) (a : CharacterArchive)
    (fresh : Nat) : CharacterArchive × Nat :=
  chapters.foldl (processChapter o) (a, fresh)

/-! ### Scenario Synthesis Orchestrator: data model
(`core/data_models.py`, `pipelines/scenario_generation.py`) -/

/-- Line kind of a scenario entry (`Literal["dialogue", "narration"]`). -/
inductive EntryType where
  | dialogue
  | narration
deriving DecidableEq

/-- Embedding of `RawScenarioEntry` as returned by Stage A: it carries a
freshly minted id (serialized to a string by `model_dump(mode='json')`). -/
structure RawScenarioEntry where
  id : String
  type : EntryType
  speaker : String
  text : String
deriving DecidableEq

/-- Embedding of `RawScenario`. -/
structure RawScenario where
  scenario : List RawScenarioEntry
deriving DecidableEq

/-- Embedding of the plain dictionaries the enrichment stages work on
(`scenario_as_dicts`).  The keys `id`, `type`, `speaker` and `text` are
always present; `ambient` and `emotion` start out absent (`none`) and are
added by Stages B and C. -/
structure EntryDict where
  id : String
  type : EntryType
  speaker : String
  text : String
  ambient : Option String := none
  emotion : Option String := none
deriving DecidableEq

/-- Conversion `entry.model_dump(mode='json')` from a raw entry to the
dictionary form. -/
def rawEntryToDict (e : RawScenarioEntry) : EntryDict :=
  { id := e.id, type := e.type, speaker := e.speaker, text := e.text }

/-- Embedding of `AmbientTransition` (the `entry_id` UUID is compared
through its string form). -/
structure AmbientTransition where
  entry_id : String
  ambientSoundId : String
deriving DecidableEq

/-- Embedding of `AmbientTransitionList`. -/
structure AmbientTransitionList where
  transitions : List AmbientTransition
deriving DecidableEq

/-- Embedding of `EmotionMap`: the dict `emotions : Dict[UUID, str]`,
with the UUID keys in their string form. -/
structure EmotionMap where
  emotions : List (String × String)
deriving DecidableEq

/-- One replica sent to the emotion analysis prompt. -/
structure ReplicaInfo where
  id : String
  speaker : String
  text : String
deriving DecidableEq

/-- Embedding of the final `ScenarioEntry` model: note it has every field
of the enriched dictionaries except `id`, which `ScenarioEntry(**entry_data)`
silently drops (pydantic ignores unknown constructor arguments). -/
structure ScenarioEntry where
  type : EntryType
  text : String
  speaker : String
  emotion : Option String := none
  ambient : String := "none"
  audio_file : Option String := none
deriving DecidableEq

/-- Embedding of `Scenario`. -/
structure Scenario where
  entries : List ScenarioEntry
deriving DecidableEq

/-- The narrator speaker label `"Рассказчик"`. -/
def narrator : String := "Рассказчик"

/-! ### Stage B: ambient enrichment (`_enrich_with_ambient`) -/

/-- The walk of `_enrich_with_ambient`: carry the current ambient along
the entry list, switching it whenever the entry's id is a key of the
transitions map, and stamp every entry with the current value. -/
def ambientWalk (tm : List (String × String)) (cur : String) :
    List EntryDict → List EntryDict
  | [] => []
  | e :: rest =>
    match dictGet? tm e.id with
    | some a => { e with ambient := some a } :: ambientWalk tm a rest
    | none => { e with ambient := some cur } :: ambientWalk tm cur rest

/-- Embedding of `_enrich_with_ambient`, taking the (already validated)
result of the ambient LLM call: a missing or empty transition list stamps
`"none"` everywhere; otherwise the transitions are collected into a dict
and propagated by `ambientWalk` starting from `"none"`. -/
def enrichWithAmbient (entries : List EntryDict) (ambientData : Option AmbientTransitionList) :
    List EntryDict :=
  match ambientData with
  | none => entries.map (fun e => { e with ambient := some "none" })
  | some d =>
    if d.transitions = [] then entries.map (fun e => { e with ambient := some "none" })
    else
      let tm := dictOfList (d.transitions.map (fun t => (t.entry_id, t.ambientSoundId)))
      ambientWalk tm "none" entries

/-! ### Stage C: emotion enrichment (`_enrich_with_emotions`) -/

/-- Assignment `entries_by_id[entry_id_str]['emotion'] = emotion`:
`entries_by_id` maps each id to the *last* entry dictionary carrying it,
so the mutation lands on the last entry with that id (ids are unique in
practice; the embedding keeps the exact dict semantics). -/
def setEmotionOnLast (es : List EntryDict) (k v : String) : List EntryDict :=
  match (es.reverse.findIdx? (fun e => e.id = k)) with
  | none => es
  | some r =>
    let i := es.length - 1 - r
    match es.get? i with
    | some e => es.set i { e with emotion := some v }
    | none => es

/-- Character profiles sent to the emotion prompt (`char_profiles`). -/
def charProfiles (archive : CharacterArchive) (chapterId : String) :
    List (String × String) :=
  dictOfList ((archive.characters.filter
      (fun c => dictHasKey c.chapter_mentions chapterId)).map
    (fun c => (c.name,
      "ОБЩЕЕ: " ++ c.spoiler_free_description ++ ". В ЭТОЙ ГЛАВЕ: " ++
        (dictGet? c.chapter_mentions chapterId).getD "")))

/-- Emotion oracle: models the LLM call of `_enrich_with_emotions`,
taking the replicas, character profiles and available emotions. -/
def EmotionOracle : Type :=
  List ReplicaInfo → List (String × String) → List String → Option EmotionMap

/-- Embedding of `_enrich_with_emotions`.  Returns the enriched entries
together with a flag recording whether the LLM collaborator was invoked.
With an empty emotion vocabulary every non-narrator entry is stamped
neutral and the call is skipped; with no analyzable replica (a truthy
speaker different from the narrator) the entries are returned untouched;
otherwise the returned id→emotion map is applied and a final sweep stamps
the neutral default on every non-narrator entry still lacking the
`emotion` key. -/
def enrichWithEmotions (oracle : EmotionOracle) (entries : List EntryDict)
    (archive : CharacterArchive) (chapterId : String)
    (availableEmotions : List String) : List EntryDict × Bool :=
  if availableEmotions = [] then
    (entries.map (fun e =>
      if e.speaker ≠ narrator then { e with emotion := some "нейтрально" } else e),
     false)
  else
    let replicas := entries.filter (fun e => e.speaker ≠ "" ∧ e.speaker ≠ narrator)
    if replicas = [] then (entries, false)
    else
      let replicaInfos := replicas.map (fun e =>
        ({ id := e.id, speaker := e.speaker, text := e.text } : ReplicaInfo))
      match oracle replicaInfos (charProfiles archive chapterId) availableEmotions with
      | none =>
        (entries.map (fun e =>
          if e.speaker ≠ narrator ∧ e.emotion = none then
            { e with emotion := some "нейтрально" }
          else e),
         true)
      | some em =>
        let entries1 := em.emotions.foldl
          (fun acc kv => setEmotionOnLast acc kv.1 kv.2) entries
        (entries1.map (fun e =>
          if e.speaker ≠ narrator ∧ e.emotion = none then
            { e with emotion := some "нейтрально" }
          else e),
         true)

/-! ### Orchestrator run (`ScenarioGenerationPipeline.run`) -/

/-- Exceptions surfaced by the orchestrator slice modelled here.
`valueError` is the `ValueError` raised when Stage A's collaborator
yields no usable scenario. -/
inductive RunError where
  | valueError
deriving DecidableEq

/-- Embedding of `CharacterArchive.load`: the classmethod *returns an
empty archive* when the file does not exist, and never raises; the
`Except` result type records that an exception channel exists but is
unused.  The file system is abstracted to the parsed content of the
archive file (`none` = the file is absent). -/
def loadCharacterArchiveFile (file : Option CharacterArchive) :
    Except RunError CharacterArchive :=
  match file with
  | none => Except.ok ⟨[]⟩
  | some a => Except.ok a

/-- Embedding of `ChapterSummaryArchive.load` restricted to what the run
consumes: the map chapter-id → synopsis; a missing file loads as the
empty map. -/
def loadSummaryFile (file : Option (List (String × String))) : List (String × String) :=
  file.getD []

/-- Embedding of `_get_contextual_characters`: the characters whose
chapter-mentions contain this chapter. -/
def getContextualCharacters (a : CharacterArchive) (chapterId : String) :
    CharacterArchive :=
  ⟨a.characters.filter (fun c => dictHasKey c.chapter_mentions chapterId)⟩

/-- Finalization step `ScenarioEntry(**entry_data)` over the enriched
dictionaries: the `id` key is dropped (no such field on `ScenarioEntry`),
a missing `ambient` key falls back to the declared default `"none"`, and
`audio_file` is never present in the dictionaries. -/
def finalizeScenario (entries : List EntryDict) : Scenario :=
  ⟨entries.map (fun e =>
    { type := e.type, text := e.text, speaker := e.speaker,
      emotion := e.emotion, ambient := e.ambient.getD "none", audio_file := none })⟩

/-- The three LLM invocations of the orchestrator, for the call log. -/
inductive StageCall where
  | stageA
  | stageB
  | stageC
deriving DecidableEq

/-- The orchestrator's LLM collaborators as deterministic oracles.
`genRaw` models `_generate_raw_scenario` (contextual characters and the
optional chapter synopsis feed the prompt); `genAmbient` models the call
inside `_enrich_with_ambient`; `genEmotion` models the call inside
`_enrich_with_emotions`. -/
structure SsoOracles where
  genRaw : CharacterArchive → Option String → Option RawScenario
  genAmbient : List EntryDict → Option AmbientTransitionList
  genEmotion : EmotionOracle

/-- On-disk inputs of one orchestrator run: the parsed contents of the
character archive, the summary archive, the Stage A raw-scenario cache
and the Stage B ambient cache (`none` = that file does not exist), plus
the chapter id and the emotion vocabulary loaded at construction. -/
structure SsoInput where
  archiveFile : Option CharacterArchive
  summaryFile : Option (List (String × String))
  rawCache : Option RawScenario
  ambientCache : Option (List EntryDict)
  availableEmotions : List String
  chapterId : String
deriving DecidableEq

/-- Embedding of `ScenarioGenerationPipeline.run`: load the archives,
run Stage A from cache or collaborator (a failed Stage A raises
`ValueError`), Stage B from cache or collaborator, always run Stage C,
and finalize.  The second component logs which collaborators were
invoked, in order. -/
def runScenario (o : SsoOracles) (inp : SsoInput) :
    Except RunError Scenario × List StageCall :=
  match loadCharacterArchiveFile inp.archiveFile with
  | Except.error e => (Except.error e, [])
  | Except.ok characterArchive =>
    let summaries := loadSummaryFile inp.summaryFile
    let rawResult : Option RawScenario :=
      match inp.rawCache with
      | some cached => some cached
      | none =>
        o.genRaw (getContextualCharacters characterArchive inp.chapterId)
          (dictGet? summaries inp.chapterId)
    let callsA : List StageCall :=
      match inp.rawCache with
      | some _ => []
      | none => [StageCall.stageA]
    match rawResult with
    | none => (Except.error RunError.valueError, callsA)
    | some raw =>
      let scenarioAsDicts := raw.scenario.map rawEntryToDict
      let ambientEnriched : List EntryDict :=
        match inp.ambientCache with
        | some cached => cached
        | none => enrichWithAmbient scenarioAsDicts (o.genAmbient scenarioAsDicts)
      let callsB : List StageCall :=
        match inp.ambientCache with
        | some _ => []
        | none => [StageCall.stageB]
      let emoRes :=
        enrichWithEmotions o.genEmotion ambientEnriched characterArchive
          inp.chapterId inp.availableEmotions
      let callsC : List StageCall := if emoRes.2 then [StageCall.stageC] else []
      (Except.ok (finalizeScenario emoRes.1), callsA ++ callsB ++ callsC)

/-! ### Audio Timeline Assembler (`utils/audio_merger.py`) -/

/-- One record of the returned sync map (`sync_item` in the source). -/
structure SyncItem where
  text : String
  start_ms : Nat
  end_ms : Nat
  speaker : String
  ambient : String
deriving DecidableEq

/-- The constant `gap_ms = 0` of `merge_chapter_audio`. -/
def gapMs : Nat := 0

/-- The entry shape the merge loop body dereferences: it reads
`entry.id`, `entry.text`, `entry.speaker`, `entry.ambient` and
`entry.audio_file`.  The final `ScenarioEntry` model lacks the `id`
field this shape requires — see `merge_chapter_audio` below. -/
structure MergeEntry where
  id : String
  text : String
  speaker : String
  ambient : String := "none"
  audio_file : Option String := none
deriving DecidableEq

/-- Abstract audio directory contents: maps a path to `none` when no
such file exists, to `some none` when the file exists but
`AudioSegment.from_file` raises (the error is swallowed and the segment
contributes nothing), and to `some (some d)` when it decodes with
duration `d` milliseconds. -/
def AudioFS : Type := String → Option (Option Nat)

/-- Whether a path exists on the abstract file system. -/
def fsExists (fs : AudioFS) (path : String) : Bool := (fs path).isSome

/-- Path concatenation `audio_dir / filename`. -/
def joinPath (dir fname : String) : String := dir ++ "/" ++ fname

/-- `pathlib`'s `Path(...).stem` on a file name: the name without its
suffix, where the suffix is the part from the last dot when that dot is
neither the first nor the last character. -/
def pathStem (name : String) : String :=
  let cs := name.data
  match cs.reverse.findIdx? (fun c => c = '.') with
  | none => name
  | some r =>
    let i := cs.length - 1 - r
    if 0 < i ∧ i < cs.length - 1 then String.mk (cs.take i) else name

/-- Second and third fallbacks of the filename choice: the entry's own
recorded `audio_file` when truthy, else the default `f"{eid}.wav"`. -/
def pickFallback (e : MergeEntry) : String :=
  match e.audio_file with
  | some s => if s ≠ "" then s else e.id ++ ".wav"
  | none => e.id ++ ".wav"

/-- Filename choice of the merge loop: the subtitles map's
`audio_file` value for this entry id when truthy, then `pickFallback`.
The subtitles map is embedded as id → the subtitle record's
`audio_file` value (the only key the merger reads). -/
def pickFilename (subs : List (String × Option String)) (e : MergeEntry) : String :=
  match (dictGet? subs e.id).getD none with
  | some s => if s ≠ "" then s else pickFallback e
  | none => pickFallback e

/-- The fixed extension-candidate list tried for missing files. -/
def audioExts : List String := [".mp3", ".ogg", ".flac", ".wav"]

/-- File resolution of the merge loop: use `audio_dir / filename` when it
exists; otherwise try the stem with each candidate extension in order and
take the first that exists; otherwise keep the original (missing) path. -/
def resolvePath (fs : AudioFS) (dir fname : String) : String :=
  let fp := joinPath dir fname
  if fsExists fs fp then fp
  else
    match audioExts.find? (fun ext =>
        fsExists fs (joinPath dir (pathStem fname ++ ext))) with
    | some ext => joinPath dir (pathStem fname ++ ext)
    | none => fp

/-- Duration contributed by an entry: `segment_duration` stays `0` when
the resolved path does not exist or its decoding raises. -/
def segmentDuration (fs : AudioFS) (path : String) : Nat :=
  match fs path with
  | some (some d) => d
  | _ => 0

/-- Duration an entry contributes to the sync span and (equally) to the
assembled stream, after filename choice and path resolution. -/
def durOf (fs : AudioFS) (dir : String) (subs : List (String × Option String))
    (e : MergeEntry) : Nat :=
  segmentDuration fs (resolvePath fs dir (pickFilename subs e))

/-- The merge loop of `merge_chapter_audio`, carrying
`current_offset_ms` and the assembled stream's length.  A decoded
segment is appended to the stream (plus the inter-entry silence when
`gap_ms > 0` and the entry is not the last); every entry, resolved or
not, appends one sync record spanning
`[current_offset, current_offset + segment_duration]`, and the offset
advances to `entry_end + gap_ms`. -/
def mergeWalk (fs : AudioFS) (dir : String) (subs : List (String × Option String))
    (offset combinedLen : Nat) : List MergeEntry → Nat × List SyncItem
  | [] => (combinedLen, [])
  | e :: rest =>
    let path := resolvePath fs dir (pickFilename subs e)
    let segDur := segmentDuration fs path
    let combined1 :=
      match fs path with
      | some (some d) =>
        combinedLen + d + (if gapMs > 0 ∧ rest ≠ [] then gapMs else 0)
      | _ => combinedLen
    let entryEnd := offset + segDur
    let item : SyncItem :=
      { text := e.text, start_ms := offset, end_ms := entryEnd,
        speaker := e.speaker,
        ambient := if e.ambient ≠ "" then e.ambient else "none" }
    let next := mergeWalk fs dir subs (entryEnd + gapMs) combined1 rest
    (next.1, item :: next.2)

/-- The merge algorithm on entries that do carry the `id` attribute the
loop body requires: returns the assembled stream's length and the sync
map. -/
def mergeEntries (fs : AudioFS) (dir : String) (subs : List (String × Option String))
    (entries : List MergeEntry) : Nat × List SyncItem :=
  mergeWalk fs dir subs 0 0 entries

/-- Exceptions of the merge embedding.  `attributeError` models the
`AttributeError` pydantic raises when an undeclared field is read. -/
inductive PyError where
  | attributeError
deriving DecidableEq

/-- Embedding of `merge_chapter_audio` as typed: it iterates
`scenario.entries` (of model type `ScenarioEntry`) and its loop body
first evaluates `str(entry.id)` — but `ScenarioEntry` declares no `id`
field, so pydantic raises `AttributeError` on the first iteration of any
non-empty scenario.  Only the empty scenario reaches the export and
returns the empty stream's length and the empty sync map. -/
def merge_chapter_audio (s : Scenario) (_fs : AudioFS) (_dir : String)
    (_subs : List (String × Option String)) : Except PyError (Nat × List SyncItem) :=
  match s.entries with
  | [] => Except.ok (0, [])
  | _ :: _ => Except.error PyError.attributeError

/-! ### Dictionary lemmas -/

theorem dictGet?_append {κ α : Type} [DecidableEq κ] (d₁ d₂ : List (κ × α)) (k : κ) :
    dictGet? (d₁ ++ d₂) k = (dictGet? d₁ k).or (dictGet? d₂ k) := by
  induction d₁ with
  | nil => simp [dictGet?]
  | cons kv d ih =>
    by_cases h : kv.1 = k
    · simp [dictGet?, h]
    · simp [dictGet?, h, ih]

theorem dictGet?_map_set_eq {κ α : Type} [DecidableEq κ] (d : List (κ × α)) (k : κ) (v : α) :
    dictGet? (d.map (fun kv => if kv.1 = k then (k, v) else kv)) k =
      if dictHasKey d k then some v else none := by
  induction d with
  | nil => simp [dictGet?, dictHasKey]
  | cons kv d ih =>
    by_cases h : kv.1 = k
    · simp [dictGet?, dictHasKey, h]
    · simp [dictGet?, dictHasKey, h, ih]

theorem dictGet?_map_set_ne {κ α : Type} [DecidableEq κ] (d : List (κ × α)) (k : κ) (v : α)
    (k' : κ) (h : k' ≠ k) :
    dictGet? (d.map (fun kv => if kv.1 = k then (k, v) else kv)) k' = dictGet? d k' := by
  induction d with
  | nil => simp [dictGet?]
  | cons kv d ih =>
    by_cases hk : kv.1 = k
    · have : k ≠ k' := fun hkk => h hkk.symm
      simp [dictGet?, hk, this, ih]
    · by_cases hk' : kv.1 = k'
      · simp [dictGet?, hk, hk', h]
      · simp [dictGet?, hk, hk', ih]

theorem dictGet?_set_self {κ α : Type} [DecidableEq κ] (d : List (κ × α)) (k : κ) (v : α) :
    dictGet? (dictSet d k v) k = some v := by
  unfold dictSet
  by_cases h : dictHasKey d k
  · simp [h, dictGet?_map_set_eq]
  · have h' : dictGet? d k = none := by
      rcases ho : dictGet? d k with _ | w
      · rfl
      · exact absurd (by simp [dictHasKey, ho]) h
    simp [h, dictGet?_append, h', dictGet?]

theorem dictGet?_set_ne {κ α : Type} [DecidableEq κ] (d : List (κ × α)) (k : κ) (v : α)
    (k' : κ) (h : k' ≠ k) : dictGet? (dictSet d k v) k' = dictGet? d k' := by
  unfold dictSet
  by_cases hk : dictHasKey d k
  · simp [hk, dictGet?_map_set_ne _ _ _ _ h]
  · have : (k : κ) ≠ k' := fun hkk => h hkk.symm
    rcases ho : dictGet? d k' with _ | w <;>
      simp [hk, dictGet?_append, ho, dictGet?, this]

theorem dictHasKey_set_self {κ α : Type} [DecidableEq κ] (d : List (κ × α)) (k : κ) (v : α) :
    dictHasKey (dictSet d k v) k = true := by
  simp [dictHasKey, dictGet?_set_self]

/-! ### Sorted-union membership lemmas -/

theorem mem_insertSorted (a x : String) (l : List String) :
    a ∈ insertSorted x l ↔ a = x ∨ a ∈ l := by
  induction l with
  | nil => simp [insertSorted]
  | cons y ys ih =>
    by_cases h : pyStrLt y x
    · simp [insertSorted, h, ih]
      tauto
    · simp [insertSorted, h]

theorem mem_pySorted (a : String) (l : List String) : a ∈ pySorted l ↔ a ∈ l := by
  induction l with
  | nil => simp [pySorted]
  | cons x xs ih => simp [pySorted, mem_insertSorted, ih]

theorem mem_dedupFirstAux (a : String) (l seen : List String) :
    a ∈ dedupFirstAux seen l ↔ a ∈ l ∧ a ∉ seen := by
  induction l generalizing seen with
  | nil => simp [dedupFirstAux]
  | cons x xs ih =>
    by_cases h : x ∈ seen
    · by_cases hax : a = x
      · subst hax
        simp [dedupFirstAux, h, ih]
      · simp [dedupFirstAux, h, ih, hax]
    · by_cases hax : a = x
      · subst hax
        simp [dedupFirstAux, h, ih]
      · simp [dedupFirstAux, h, ih, hax]

theorem mem_sortedUnion (a : String) (ex nw : List String) :
    a ∈ sortedUnion ex nw ↔ a ∈ ex ∨ a ∈ nw := by
  simp [sortedUnion, mem_pySorted, dedupFirst, mem_dedupFirstAux]

/-! ### Ambient walk lemmas -/

/-- Current-ambient value after consuming a list of entries: each entry
whose id is a transition key switches the value. -/
def currentAmbient (tm : List (String × String)) (cur : String) (es : List EntryDict) :
    String :=
  es.foldl (fun c e => (dictGet? tm e.id).getD c) cur

theorem ambientWalk_cons (tm : List (String × String)) (cur : String) (e : EntryDict)
    (rest : List EntryDict) :
    ambientWalk tm cur (e :: rest) =
      { e with ambient := some ((dictGet? tm e.id).getD cur) } ::
        ambientWalk tm ((dictGet? tm e.id).getD cur) rest := by
  rcases h : dictGet? tm e.id with _ | a <;> simp [ambientWalk, h]

theorem ambientWalk_get? (tm : List (String × String)) (cur : String)
    (es : List EntryDict) (i : Nat) :
    (ambientWalk tm cur es)[i]? =
      (es[i]?).map
        (fun e => { e with ambient := some (currentAmbient tm cur (es.take (i + 1))) }) := by
  induction es generalizing cur i with
  | nil => simp [ambientWalk]
  | cons e rest ih =>
    rw [ambientWalk_cons]
    cases i with
    | zero => simp [currentAmbient]
    | succ i => simp [ih, currentAmbient]

theorem currentAmbient_take_succ (tm : List (String × String)) (cur : String)
    (es : List EntryDict) (i : Nat) (e : EntryDict) (h : es[i]? = some e) :
    currentAmbient tm cur (es.take (i + 1)) =
      (dictGet? tm e.id).getD (currentAmbient tm cur (es.take i)) := by
  simp [List.take_succ, h, currentAmbient]

theorem ambientWalk_length (tm : List (String × String)) (cur : String)
    (es : List EntryDict) : (ambientWalk tm cur es).length = es.length := by
  induction es generalizing cur with
  | nil => simp [ambientWalk]
  | cons e rest ih =>
    rw [ambientWalk_cons]
    simp [ih]

/-- Demo entry used by concrete examples. -/
def demoEntry (i : String) : EntryDict :=
  { id := i, type := EntryType.narration, speaker := "S", text := "t" }

/-- Demo transition list: a single transition to `"rain"` at entry `A`. -/
def demoRainTransitions : AmbientTransitionList :=
  ⟨[{ entry_id := "A", ambientSoundId := "rain" }]⟩

theorem enrichWithAmbient_allNone (entries : List EntryDict)
    (ambientData : Option AmbientTransitionList)
    (h : ambientData = none ∨ ∃ d, ambientData = some d ∧ d.transitions = []) :
    enrichWithAmbient entries ambientData =
      entries.map (fun e => { e with ambient := some "none" }) := by
  rcases h with h | ⟨d, hd, htr⟩
  · subst h
    rfl
  · subst hd
    simp [enrichWithAmbient, htr]

theorem enrichWithAmbient_walk (entries : List EntryDict) (d : AmbientTransitionList)
    (h : d.transitions ≠ []) :
    enrichWithAmbient entries (some d) =
      ambientWalk (dictOfList (d.transitions.map
        (fun t => (t.entry_id, t.ambientSoundId)))) "none" entries := by
  simp [enrichWithAmbient, h]

/-- C4: ambient tagging is run-length propagation.  For every entry list
and transition list, Stage B returns one output entry per input entry
with every non-ambient field preserved; an absent or empty transition
list stamps `"none"` on every entry; otherwise an entry whose id is a
transition key gets that transition's ambient, the first entry gets
`"none"` when it is no transition point, and any later non-transition
entry copies the previous output entry's ambient — so the ambient
sequence is piecewise-constant and changes only at transition entries.
The final conjunct checks the `[A,B,C]`/`rain` example. -/
theorem ambient_tagging_is_run_length_propagation :
    (∀ (entries : List EntryDict) (ambientData : Option AmbientTransitionList),
      ((enrichWithAmbient entries ambientData).length = entries.length
        ∧ ∀ (i : Nat) (e e' : EntryDict), entries[i]? = some e →
            (enrichWithAmbient entries ambientData)[i]? = some e' →
            e'.id = e.id ∧ e'.type = e.type ∧ e'.speaker = e.speaker ∧
              e'.text = e.text ∧ e'.emotion = e.emotion)
      ∧ ((ambientData = none ∨ ∃ d, ambientData = some d ∧ d.transitions = []) →
          (enrichWithAmbient entries ambientData).map (fun e => e.ambient) =
            List.replicate entries.length (some "none"))
      ∧ ∀ (d : AmbientTransitionList), ambientData = some d → d.transitions ≠ [] →
          ∀ (tm : List (String × String)), tm = dictOfList (d.transitions.map
              (fun t => (t.entry_id, t.ambientSoundId))) →
            (∀ (i : Nat) (e e' : EntryDict) (a : String), entries[i]? = some e →
                (enrichWithAmbient entries ambientData)[i]? = some e' →
                dictGet? tm e.id = some a → e'.ambient = some a)
            ∧ (∀ (e e' : EntryDict), entries[0]? = some e →
                (enrichWithAmbient entries ambientData)[0]? = some e' →
                dictGet? tm e.id = none → e'.ambient = some "none")
            ∧ (∀ (i : Nat) (e e' p : EntryDict), entries[i + 1]? = some e →
                (enrichWithAmbient entries ambientData)[i + 1]? = some e' →
                (enrichWithAmbient entries ambientData)[i]? = some p →
                dictGet? tm e.id = none → e'.ambient = p.ambient))
    ∧ (enrichWithAmbient [demoEntry "A", demoEntry "B", demoEntry "C"]
          (some demoRainTransitions)).map (fun e => e.ambient) =
        [some "rain", some "rain", some "rain"] := by
  constructor
  · intro entries ambientData
    by_cases hdeg : ambientData = none ∨
        ∃ d, ambientData = some d ∧ d.transitions = []
    · rw [enrichWithAmbient_allNone entries ambientData hdeg]
      refine ⟨⟨by simp, ?_⟩, fun _ => ?_, ?_⟩
      · intro i e e' he he'
        simp only [List.getElem?_map, he, Option.map_some] at he'
        cases he'
        simp
      · simp [List.map_map, Function.comp_def, List.map_const']
      · intro d hd htr tm htm
        rcases hdeg with h | ⟨d', hd', htr'⟩
        · rw [h] at hd
          cases hd
        · rw [hd'] at hd
          cases hd
          exact absurd htr' htr
    · push_neg at hdeg
      rcases ho : ambientData with _ | d
      · exact absurd rfl (ho ▸ hdeg.1)
      · have htr : d.transitions ≠ [] := by
          intro hh
          exact hdeg.2 d (by rw [ho]) hh
        have hwalk := enrichWithAmbient_walk entries d htr
        refine ⟨⟨by rw [hwalk, ambientWalk_length], ?_⟩, ?_, ?_⟩
        · intro i e e' he he'
          rw [hwalk, ambientWalk_get?, he] at he'
          cases he'
          simp
        · intro hcontra
          rcases hcontra with h | ⟨d', hd', htr'⟩
          · cases h
          · cases hd'
            exact absurd htr' htr
        · intro d' hd' _ tm htm
          cases hd'
          subst htm
          refine ⟨?_, ?_, ?_⟩
          · intro i e e' a he he' ha
            rw [hwalk, ambientWalk_get?, he] at he'
            cases he'
            simp [currentAmbient_take_succ _ _ _ _ _ he, ha]
          · intro e e' he he' ha
            rw [hwalk, ambientWalk_get?, he] at he'
            cases he'
            dsimp only
            rw [currentAmbient_take_succ _ _ _ _ _ he, ha]
            simp [currentAmbient]
          · intro i e e' p he he' hp ha
            rw [hwalk, ambientWalk_get?, he] at he'
            rw [hwalk, ambientWalk_get?] at hp
            rcases hq : entries[i]? with _ | pe
            · rw [hq] at hp
              cases hp
            · rw [hq] at hp
              cases he'
              cases hp
              simp [currentAmbient_take_succ _ _ _ _ _ he, ha]
  · decide

/-- Witness for the C4 theorem: on the `[A,B,C]` example with a single
`rain` transition at `A`, entry `B` (no transition point) copies entry
`A`'s ambient, and with no transition data a one-entry chapter is stamped
`"none"`. -/
theorem ambient_tagging_witness :
    ((enrichWithAmbient [demoEntry "A", demoEntry "B", demoEntry "C"]
        (some demoRainTransitions))[1]?).map (fun e => e.ambient) =
      ((enrichWithAmbient [demoEntry "A", demoEntry "B", demoEntry "C"]
        (some demoRainTransitions))[0]?).map (fun e => e.ambient)
    ∧ (enrichWithAmbient [demoEntry "A"] none).map (fun e => e.ambient) =
        List.replicate 1 (some "none") := by
  constructor
  · have h3 := (ambient_tagging_is_run_length_propagation.1
      [demoEntry "A", demoEntry "B", demoEntry "C"]
      (some demoRainTransitions)).2.2 demoRainTransitions rfl (by decide)
      (dictOfList (demoRainTransitions.transitions.map
        (fun t => (t.entry_id, t.ambientSoundId)))) rfl
    have hB : (enrichWithAmbient [demoEntry "A", demoEntry "B", demoEntry "C"]
        (some demoRainTransitions))[1]? =
        some { id := "B", type := EntryType.narration, speaker := "S", text := "t",
               ambient := some "rain", emotion := none } := by decide
    have hA : (enrichWithAmbient [demoEntry "A", demoEntry "B", demoEntry "C"]
        (some demoRainTransitions))[0]? =
        some { id := "A", type := EntryType.narration, speaker := "S", text := "t",
               ambient := some "rain", emotion := none } := by decide
    rw [hB, hA]
    exact congrArg some (h3.2.2 0 (demoEntry "B") _ _ (by decide) hB hA (by decide))
  · have h := (ambient_tagging_is_run_length_propagation.1
      [demoEntry "A"] none).2.1 (Or.inl rfl)
    simpa using h

/-! ### C10: a patch with an unmatched identifier is skipped -/

theorem dictGet?_foldl_set_notMem (chars : List Character)
    (acc : List (Nat × Character)) (i : Nat) (h : i ∉ chars.map Character.id) :
    dictGet? (chars.foldl (fun m c => dictSet m c.id c) acc) i = dictGet? acc i := by
  induction chars generalizing acc with
  | nil => rfl
  | cons c cs ih =>
    simp only [List.map_cons, List.mem_cons, not_or] at h
    rw [List.foldl_cons, ih _ h.2, dictGet?_set_ne _ _ _ _ h.1]

theorem dictGet?_buildCharMap_notMem (chars : List Character) (i : Nat)
    (h : i ∉ chars.map Character.id) : dictGet? (buildCharMap chars) i = none := by
  rw [buildCharMap, dictGet?_foldl_set_notMem _ _ _ h]
  rfl

/-- C10: an update patch whose identifier matches no character in the
registry is skipped — the character map and the fresh-id counter are
untouched (in particular no character is created, even when the patch
carries a name), and dropping such a patch from the front of a batch
leaves the whole application unchanged, so the remaining patches apply
normally. -/
theorem unmatched_id_patch_is_skipped :
    (∀ (vol chap : Nat) (m : List (Nat × Character)) (fresh : Nat)
        (p : CharacterPatch) (i : Nat),
      p.id = some i → dictGet? m i = none →
      applyOnePatch vol chap (m, fresh) p = (m, fresh))
    ∧ ∀ (a : CharacterArchive) (p : CharacterPatch) (i : Nat)
        (ps : List CharacterPatch) (vol chap fresh : Nat),
      p.id = some i → i ∉ a.characters.map Character.id →
      applyPatchArchive a ⟨p :: ps⟩ vol chap fresh =
        applyPatchArchive a ⟨ps⟩ vol chap fresh := by
  have h1 : ∀ (vol chap : Nat) (m : List (Nat × Character)) (fresh : Nat)
      (p : CharacterPatch) (i : Nat),
      p.id = some i → dictGet? m i = none →
      applyOnePatch vol chap (m, fresh) p = (m, fresh) := by
    intro vol chap m fresh p i hp hget
    simp [applyOnePatch, hp, hget]
  refine ⟨h1, ?_⟩
  intro a p i ps vol chap fresh hp hmem
  unfold applyPatchArchive
  rw [List.foldl_cons,
    h1 vol chap (buildCharMap a.characters) fresh p i hp
      (dictGet?_buildCharMap_notMem _ _ hmem)]

/-- Demo character `Elena` with id `1` and alias list `["El"]`, the
spec's running example. -/
def demoElena : Character :=
  { id := 1, name := "Elena", description := "d",
    spoiler_free_description := "s", aliases := ["El"], chapter_mentions := [] }

/-- Demo patch carrying an id that matches no character. -/
def demoGhostPatch : CharacterPatch := { id := some 99, name := some "Ghost" }

/-- Witness for the C10 theorem: a patch carrying unknown id `99` (and
even a name) leaves a one-character registry and the fresh-id counter
exactly as they were. -/
theorem unmatched_id_patch_witness :
    applyPatchArchive ⟨[demoElena]⟩ ⟨[demoGhostPatch]⟩ 1 1 5 = (⟨[demoElena]⟩, 5) := by
  rw [unmatched_id_patch_is_skipped.2 _ _ 99 [] 1 1 5 rfl (by decide)]
  decide

/-! ### C2: alias merge -/

/-- Demo patch whose alias field is present but empty. -/
def demoEmptyAliasPatch : CharacterPatch := { id := some 1, aliases := some [] }

/-- Demo patch adding the alias `"Lena"` to character `1`. -/
def demoLenaPatch : CharacterPatch := { id := some 1, aliases := some ["Lena"] }

/-- Counterexample to C2 as stated: a patch whose alias list is present
but *empty* does not produce the sorted union (which would keep
`["El"]`); the guard `if 'aliases' in update_data and update_data['aliases']`
skips the merge and `model_copy` then overwrites the alias list with
`[]`, removing the existing alias `"El"`. -/
theorem alias_merge_empty_patch_clears :
    ((applyPatchArchive ⟨[demoElena]⟩ ⟨[demoEmptyAliasPatch]⟩ 1 1 5).1.characters.map
        (fun c => c.aliases)) = [[]]
    ∧ demoElena.aliases = ["El"]
    ∧ sortedUnion demoElena.aliases [] = ["El"] := by decide

/-- C2 (amended): when the patch's alias field is present and
*non-empty*, applying the patch to a matched character replaces the
alias list by the sorted union of the existing and the patch aliases —
so no alias is removed — and leaves id (and, when unset, name)
unchanged; the update lands in the character map at the patched id; and
along any sequence of patches none of which carries a present-but-empty
alias list, the alias set only grows. -/
theorem alias_merge_is_sorted_union_amended :
    (∀ (c : Character) (p : CharacterPatch) (xs : List String),
      p.aliases = some xs → xs ≠ [] →
      (applyUpdate c p).aliases = sortedUnion c.aliases xs
      ∧ (∀ a, a ∈ c.aliases → a ∈ (applyUpdate c p).aliases)
      ∧ (applyUpdate c p).id = c.id
      ∧ (p.name = none → (applyUpdate c p).name = c.name))
    ∧ (∀ (m : List (Nat × Character)) (i vol chap fresh : Nat) (c : Character)
        (p : CharacterPatch), dictGet? m i = some c → p.id = some i →
        dictGet? (applyOnePatch vol chap (m, fresh) p).1 i = some (applyUpdate c p))
    ∧ ∀ (c : Character) (ps : List CharacterPatch),
        (∀ p ∈ ps, p.aliases ≠ some []) →
        ∀ a ∈ c.aliases, a ∈ (ps.foldl applyUpdate c).aliases := by
  refine ⟨?_, ?_, ?_⟩
  · intro c p xs hxs hne
    refine ⟨by simp [applyUpdate, hxs, hne], ?_, rfl, fun hnm => by simp [applyUpdate, hnm]⟩
    intro a ha
    simp [applyUpdate, hxs, hne, mem_sortedUnion, ha]
  · intro m i vol chap fresh c p hc hp
    simp [applyOnePatch, hp, hc, dictGet?_set_self]
  · intro c ps
    induction ps generalizing c with
    | nil => exact fun _ a ha => ha
    | cons p ps ih =>
      intro hall a ha
      rw [List.foldl_cons]
      refine ih (applyUpdate c p) (fun q hq => hall q (List.mem_cons_of_mem _ hq)) a ?_
      rcases hxs : p.aliases with _ | xs
      · simpa [applyUpdate, hxs] using ha
      · have hne : xs ≠ [] := by
          intro hemp
          exact hall p (List.mem_cons_self p ps) (by rw [hxs, hemp])
        simp [applyUpdate, hxs, hne, mem_sortedUnion, ha]

/-- Witness for the amended C2 theorem: `Elena` with aliases `["El"]`
patched with aliases `["Lena"]` ends with the sorted union
`["El","Lena"]`, name and id unchanged — the spec's worked example. -/
theorem alias_merge_witness :
    (applyUpdate demoElena demoLenaPatch).aliases = ["El", "Lena"]
    ∧ (applyUpdate demoElena demoLenaPatch).name = "Elena"
    ∧ (applyUpdate demoElena demoLenaPatch).id = 1 := by
  have h := alias_merge_is_sorted_union_amended.1 demoElena demoLenaPatch ["Lena"]
    rfl (by decide)
  refine ⟨?_, ?_, ?_⟩
  · rw [h.1]
    decide
  · rw [h.2.2.2 rfl]
    rfl
  · rw [h.2.2.1]
    rfl

/-! ### C5: first-mention -/

/-- C5: the `Character` model stores no first-mention at all.  The
creation branch of `_apply_patch` computes
`first_mention=f"Том {vol}, Глава {chap}"` and passes it to
`Character(...)`, but the model declares no such field and pydantic
silently drops unknown constructor arguments — so the character built
from a creation patch is entirely independent of the chapter location,
and there is no stored first-mention value for later patches to
preserve. -/
theorem first_mention_is_never_stored :
    ∀ (nm : String) (p : CharacterPatch) (vol chap vol' chap' freshId : Nat),
      mkNewCharacter nm p vol chap freshId = mkNewCharacter nm p vol' chap' freshId := by
  intro nm p vol chap vol' chap' freshId
  rfl

/-! ### C9: cache hits suppress collaborator calls -/

/-- C9: resume semantics.  When the raw-script cache exists the run
never logs a Stage A collaborator call and its outcome is independent of
the Stage A oracle (the cached scenario is used verbatim); symmetrically
an existing ambient cache suppresses the Stage B call and makes the
outcome independent of the Stage B oracle. -/
theorem cache_hit_skips_generation :
    (∀ (o : SsoOracles) (inp : SsoInput) (s : RawScenario),
      inp.rawCache = some s → StageCall.stageA ∉ (runScenario o inp).2)
    ∧ (∀ (o : SsoOracles) (inp : SsoInput) (l : List EntryDict),
      inp.ambientCache = some l → StageCall.stageB ∉ (runScenario o inp).2)
    ∧ (∀ (g g' : CharacterArchive → Option String → Option RawScenario)
        (gb : List EntryDict → Option AmbientTransitionList)
        (ge : EmotionOracle) (inp : SsoInput) (s : RawScenario),
      inp.rawCache = some s →
      runScenario ⟨g, gb, ge⟩ inp = runScenario ⟨g', gb, ge⟩ inp)
    ∧ ∀ (g : CharacterArchive → Option String → Option RawScenario)
        (gb gb' : List EntryDict → Option AmbientTransitionList)
        (ge : EmotionOracle) (inp : SsoInput) (l : List EntryDict),
      inp.ambientCache = some l →
      runScenario ⟨g, gb, ge⟩ inp = runScenario ⟨g, gb', ge⟩ inp := by
  refine ⟨?_, ?_, ?_, ?_⟩
  · intro o inp s hraw
    rcases ha : inp.archiveFile with _ | a <;>
      rcases hb : inp.ambientCache with _ | l <;>
        simp [runScenario, loadCharacterArchiveFile, ha, hb, hraw]
  · intro o inp l hamb
    rcases ha : inp.archiveFile with _ | a <;>
      rcases hb : inp.rawCache with _ | s <;>
        simp [runScenario, loadCharacterArchiveFile, ha, hb, hamb] <;>
          rcases hg : SsoOracles.genRaw o _ _ with _ | raw <;> simp
  · intro g g' gb ge inp s hraw
    rcases ha : inp.archiveFile with _ | a <;>
      simp only [runScenario, loadCharacterArchiveFile, ha, hraw]
  · intro g gb gb' ge inp l hamb
    rcases ha : inp.archiveFile with _ | a <;>
      rcases hb : inp.rawCache with _ | s <;>
        simp only [runScenario, loadCharacterArchiveFile, ha, hb, hamb]

/-- Demo raw entry produced by the Stage A collaborator. -/
def demoRawEntry : RawScenarioEntry :=
  { id := "e1", type := EntryType.narration, speaker := "Рассказчик", text := "hello" }

/-- Demo raw scenario. -/
def demoRawScenario : RawScenario := ⟨[demoRawEntry]⟩

/-- Demo orchestrator oracles: Stage A produces `demoRawScenario`, the
ambient and emotion collaborators return nothing usable. -/
def demoOracles : SsoOracles :=
  { genRaw := fun _ _ => some demoRawScenario
    genAmbient := fun _ => none
    genEmotion := fun _ _ _ => none }

/-- Demo orchestrator input with *no* character archive file on disk and
cold caches. -/
def demoMissingArchiveInput : SsoInput :=
  { archiveFile := none, summaryFile := none, rawCache := none, ambientCache := none,
    availableEmotions := ["радость"], chapterId := "vol_1_chap_1" }

/-- Demo orchestrator input with a warm raw-scenario cache. -/
def demoCachedInput : SsoInput :=
  { archiveFile := some ⟨[]⟩, summaryFile := none, rawCache := some demoRawScenario,
    ambientCache := none, availableEmotions := ["радость"], chapterId := "vol_1_chap_1" }

/-- Witness for the C9 theorem: with a warm raw cache, the run logs no
Stage A call, and swapping the Stage A oracle for one that always fails
does not change the run at all. -/
theorem cache_hit_witness :
    StageCall.stageA ∉ (runScenario demoOracles demoCachedInput).2
    ∧ runScenario ⟨fun _ _ => none, demoOracles.genAmbient, demoOracles.genEmotion⟩
        demoCachedInput = runScenario demoOracles demoCachedInput := by
  constructor
  · exact cache_hit_skips_generation.1 demoOracles demoCachedInput demoRawScenario rfl
  · exact cache_hit_skips_generation.2.2.1 (fun _ _ => none) demoOracles.genRaw
      demoOracles.genAmbient demoOracles.genEmotion demoCachedInput demoRawScenario rfl

/-! ### C6: missing character archive -/

/-- Counterexample to C6 as stated: with the character archive file
absent, the scenario run does *not* abort — it completes and returns the
finalized scenario built with an empty character registry (and all three
stages proceed: Stage A and Stage B collaborators are invoked). -/
theorem missing_archive_run_completes :
    (runScenario demoOracles demoMissingArchiveInput).1 =
      Except.ok (finalizeScenario (enrichWithAmbient
        (demoRawScenario.scenario.map rawEntryToDict) none))
    ∧ (runScenario demoOracles demoMissingArchiveInput).2 =
      [StageCall.stageA, StageCall.stageB]
    ∧ demoMissingArchiveInput.archiveFile = none := by
  exact ⟨rfl, rfl, rfl⟩

/-- C6 (amended): a missing character archive file is not fatal —
`CharacterArchive.load` returns the empty registry and the orchestrator
run proceeds exactly as it would with an explicitly empty character
archive on disk. -/
theorem missing_archive_loads_empty :
    (∀ (o : SsoOracles) (inp : SsoInput), inp.archiveFile = none →
      runScenario o inp = runScenario o { inp with archiveFile := some ⟨[]⟩ })
    ∧ loadCharacterArchiveFile none = Except.ok ⟨[]⟩ := by
  constructor
  · intro o inp h
    rcases inp with ⟨af, sf, rc, ac, ae, cid⟩
    cases h
    rfl
  · rfl

/-- Witness for the amended C6 theorem at the concrete demo input. -/
theorem missing_archive_witness :
    runScenario demoOracles demoMissingArchiveInput =
      runScenario demoOracles { demoMissingArchiveInput with archiveFile := some ⟨[]⟩ } :=
  missing_archive_loads_empty.1 demoOracles demoMissingArchiveInput rfl

/-! ### C8: emotion totality -/

/-- Demo dialogue entry whose speaker label is the empty string. -/
def demoEmptySpeakerEntry : EntryDict :=
  { id := "d1", type := EntryType.dialogue, speaker := "", text := "hi",
    ambient := some "none" }

/-- Demo emotion oracle that maps every replica it is shown to
`"радость"`. -/
def demoWillingEmotionOracle : EmotionOracle :=
  fun rs _ _ => some ⟨rs.map (fun r => (r.id, "радость"))⟩

/-- Counterexample to C8 as stated: a *dialogue* entry whose speaker
label is empty is not collected as a replica; when no entry has an
analyzable speaker the stage returns early, before the neutral-default
sweep, so the dialogue entry reaches the finalized scenario with no
emotion label — even though the vocabulary is non-empty and the
collaborator would have answered. -/
theorem emotion_gap_on_empty_speaker :
    (enrichWithEmotions demoWillingEmotionOracle [demoEmptySpeakerEntry] ⟨[]⟩
        "vol_1_chap_1" ["радость"]).1.map (fun e => e.emotion) = [none]
    ∧ demoEmptySpeakerEntry.type = EntryType.dialogue
    ∧ (finalizeScenario (enrichWithEmotions demoWillingEmotionOracle
        [demoEmptySpeakerEntry] ⟨[]⟩ "vol_1_chap_1" ["радость"]).1).entries.map
        (fun e => e.emotion) = [none] :=
  ⟨rfl, rfl, rfl⟩

theorem neutral_sweep_covers (es : List EntryDict) :
    ∀ e ∈ es.map (fun e =>
        if e.speaker ≠ narrator ∧ e.emotion = none then
          { e with emotion := some "нейтрально" }
        else e),
      e.speaker ≠ narrator → e.emotion.isSome := by
  intro e he hn
  rcases List.mem_map.mp he with ⟨e0, _, rfl⟩
  by_cases h : e0.speaker ≠ narrator ∧ e0.emotion = none
  · rw [if_pos h]
    simp
  · rw [if_neg h] at hn ⊢
    exact Option.isSome_iff_ne_none.mpr (fun hemo => h ⟨hn, hemo⟩)

/-- C8 (amended): after Stage C every entry whose speaker label is
non-empty and different from the narrator carries an emotion label — in
every branch (empty vocabulary, failed collaborator call, partial
response) such entries receive the neutral default when unmapped — and
the property survives finalization.  (Entries with an empty speaker
label, even dialogue-typed ones, can slip through when the chapter has
no analyzable replica at all, as the counterexample shows.) -/
theorem emotion_totality_for_speakered_entries :
    (∀ (oracle : EmotionOracle) (entries : List EntryDict)
        (archive : CharacterArchive) (cid : String) (emos : List String),
      ∀ e ∈ (enrichWithEmotions oracle entries archive cid emos).1,
        e.speaker ≠ "" → e.speaker ≠ narrator → e.emotion.isSome)
    ∧ ∀ (o : SsoOracles) (inp : SsoInput) (s : Scenario),
        (runScenario o inp).1 = Except.ok s →
        ∀ e ∈ s.entries, e.speaker ≠ "" → e.speaker ≠ narrator → e.emotion.isSome := by
  have part1 : ∀ (oracle : EmotionOracle) (entries : List EntryDict)
      (archive : CharacterArchive) (cid : String) (emos : List String),
      ∀ e ∈ (enrichWithEmotions oracle entries archive cid emos).1,
        e.speaker ≠ "" → e.speaker ≠ narrator → e.emotion.isSome := by
    intro oracle entries archive cid emos e he hs hn
    by_cases hv : emos = []
    · simp only [enrichWithEmotions, hv, if_pos] at he
      rcases List.mem_map.mp he with ⟨e0, _, rfl⟩
      by_cases h0 : e0.speaker ≠ narrator
      · rw [if_pos h0]
        simp
      · rw [if_neg h0] at hn ⊢
        exact absurd hn h0
    · by_cases hr : entries.filter
          (fun e => decide (e.speaker ≠ "" ∧ e.speaker ≠ narrator)) = []
      · simp only [enrichWithEmotions, hv, if_neg, hr, if_pos] at he
        have := List.filter_eq_nil_iff.mp hr e he
        simp only [decide_eq_true_eq, not_and, not_not] at this
        exact absurd (this hs) hn
      · rcases hor : oracle ((entries.filter
            (fun e => decide (e.speaker ≠ "" ∧ e.speaker ≠ narrator))).map
              (fun e => ({ id := e.id, speaker := e.speaker, text := e.text } : ReplicaInfo)))
            (charProfiles archive cid) emos with _ | em
        · simp only [enrichWithEmotions, hv, if_neg, hr, hor] at he
          exact neutral_sweep_covers _ e he hn
        · simp only [enrichWithEmotions, hv, if_neg, hr, hor] at he
          exact neutral_sweep_covers _ e he hn
  refine ⟨part1, ?_⟩
  intro o inp s h e he hs hn
  rcases ha : inp.archiveFile with _ | a <;>
    rcases hrc : inp.rawCache with _ | cached <;>
      simp only [runScenario, loadCharacterArchiveFile, ha, hrc] at h
  case none.none =>
    rcases hg : o.genRaw (getContextualCharacters ⟨[]⟩ inp.chapterId)
        (dictGet? (loadSummaryFile inp.summaryFile) inp.chapterId) with _ | raw <;>
      simp only [hg, reduceCtorEq, Except.ok.injEq] at h
    subst h
    rcases List.mem_map.mp he with ⟨e0, he0, rfl⟩
    exact part1 _ _ _ _ _ e0 he0 hs hn
  case none.some =>
    simp only [Except.ok.injEq] at h
    subst h
    rcases List.mem_map.mp he with ⟨e0, he0, rfl⟩
    exact part1 _ _ _ _ _ e0 he0 hs hn
  case some.none =>
    rcases hg : o.genRaw (getContextualCharacters a inp.chapterId)
        (dictGet? (loadSummaryFile inp.summaryFile) inp.chapterId) with _ | raw <;>
      simp only [hg, reduceCtorEq, Except.ok.injEq] at h
    subst h
    rcases List.mem_map.mp he with ⟨e0, he0, rfl⟩
    exact part1 _ _ _ _ _ e0 he0 hs hn
  case some.some =>
    simp only [Except.ok.injEq] at h
    subst h
    rcases List.mem_map.mp he with ⟨e0, he0, rfl⟩
    exact part1 _ _ _ _ _ e0 he0 hs hn

/-- Witness for the amended C8 theorem: a dialogue entry with a real
speaker and a failing collaborator ends with an emotion label. -/
theorem emotion_totality_witness :
    ∃ e, (enrichWithEmotions (fun _ _ _ => none)
        [{ demoEmptySpeakerEntry with speaker := "Анна" }] ⟨[]⟩
        "vol_1_chap_1" ["радость"]).1 = [e] ∧ e.emotion.isSome := by
  refine ⟨_, rfl, ?_⟩
  exact emotion_totality_for_speakered_entries.1 (fun _ _ _ => none)
    [{ demoEmptySpeakerEntry with speaker := "Анна" }] ⟨[]⟩ "vol_1_chap_1" ["радость"]
    _ (by decide) (by decide) (by decide)

/-! ### C7: creation-patch name contract -/

/-- Demo creation patch with a name. -/
def demoGoodPatch : CharacterPatch := { id := none, name := some "Анна" }

/-- Demo creation patch with no name — a contract violation. -/
def demoNamelessPatch : CharacterPatch := { id := none }

/-- Demo one-chapter book. -/
def demoChapterOne : Chapter := { vol := 1, chap := 1, text := "x" }

/-- Demo KBM oracles whose patch call returns a batch holding one valid
creation patch and one nameless creation patch. -/
def demoKbmBadBatch : KbmOracles :=
  { recon := fun _ _ => some { newly_discovered_names := ["Анна", "Безымянный"] }
    operation := fun _ _ _ _ _ => some [demoGoodPatch, demoNamelessPatch] }

/-- Demo KBM oracles whose patch call returns only the valid patch. -/
def demoKbmGoodBatch : KbmOracles :=
  { recon := fun _ _ => some { newly_discovered_names := ["Анна"] }
    operation := fun _ _ _ _ _ => some [demoGoodPatch] }

/-- Counterexample to C7 as stated: one nameless creation patch fails
pydantic validation of the *whole* `CharacterPatchList`, so
`call_for_pydantic` returns `None` and none of the batch's patches is
applied — the valid patch `Анна` is not created, though the same run
with the nameless patch absent creates her. -/
theorem invalid_patch_rejects_whole_batch :
    (runBook demoKbmBadBatch [demoChapterOne] ⟨[]⟩ 0).1.characters = []
    ∧ (runBook demoKbmGoodBatch [demoChapterOne] ⟨[]⟩ 0).1.characters.map
        (fun c => c.name) = ["Анна"]
    ∧ validatePatchList [demoGoodPatch, demoNamelessPatch] = none
    ∧ check_name_for_new_character demoGoodPatch = true :=
  ⟨rfl, rfl, rfl, rfl⟩

/-- C7 (amended): a creation patch without a truthy name fails its model
validator, which makes validation of the entire patch list fail; the
pipeline does not crash — `call_for_pydantic` returns no result and the
chapter step degrades to the placeholder-mentions fallback, so *no*
patch of that batch (valid ones included) is applied. -/
theorem nameless_creation_patch_rejects_batch :
    (∀ (ps : List CharacterPatch) (p : CharacterPatch), p ∈ ps →
      check_name_for_new_character p = false → validatePatchList ps = none)
    ∧ (∀ (p : CharacterPatch), p.id = none → p.name = none ∨ p.name = some "" →
        check_name_for_new_character p = false)
    ∧ ∀ (o : KbmOracles) (st : CharacterArchive × Nat) (ch : Chapter)
        (r : CharacterReconResult) (ps : List CharacterPatch) (p : CharacterPatch),
        isChapterProcessed st.1 (chapterIdOf ch.vol ch.chap) = false →
        stripIsEmpty ch.text = false →
        o.recon st.1 ch.text = some r →
        ¬(r.mentioned_existing_character_ids = [] ∧ r.newly_discovered_names = []) →
        o.operation (filterArchiveByIds st.1 r.mentioned_existing_character_ids)
          r.newly_discovered_names ch.text ch.vol ch.chap = some ps →
        p ∈ ps → check_name_for_new_character p = false →
        processChapter o st ch =
          (addEmptyMentions st.1 r.mentioned_existing_character_ids
            (chapterIdOf ch.vol ch.chap), st.2) := by
  have part1 : ∀ (ps : List CharacterPatch) (p : CharacterPatch), p ∈ ps →
      check_name_for_new_character p = false → validatePatchList ps = none := by
    intro ps p hp hfail
    unfold validatePatchList
    rcases hall : ps.all check_name_for_new_character with _ | _
    · simp
    · exact absurd (List.all_eq_true.mp hall p hp) (by rw [hfail]; decide)
  refine ⟨part1, ?_, ?_⟩
  · intro p hid hname
    rcases hname with h | h <;> simp [check_name_for_new_character, optStrTruthy, hid, h]
  · intro o st ch r ps p hproc htext hrecon hfound hop hp hfail
    unfold processChapter
    dsimp only
    rw [hproc, htext]
    simp only [Bool.false_eq_true, if_false, hrecon]
    rw [if_neg hfound, hop, Option.some_bind, part1 ps p hp hfail]

/-- Witness for the amended C7 theorem: the bad-batch oracles leave the
empty registry empty (the fallback adds no mention since recon returned
no existing ids). -/
theorem nameless_creation_patch_witness :
    processChapter demoKbmBadBatch (⟨[]⟩, 0) demoChapterOne = (⟨[]⟩, 0) := by
  have h := nameless_creation_patch_rejects_batch.2.2 demoKbmBadBatch (⟨[]⟩, 0)
    demoChapterOne { newly_discovered_names := ["Анна", "Безымянный"] }
    [demoGoodPatch, demoNamelessPatch] demoNamelessPatch rfl rfl rfl
    (by simp) rfl (by simp) rfl
  rw [h]
  rfl

/-! ### C3: knowledge-base idempotence -/

/-- Demo KBM oracles that keep rediscovering the same new character
`X` and keep returning a creation patch that records no chapter
mention. -/
def demoKbmRepeat : KbmOracles :=
  { recon := fun _ _ => some { newly_discovered_names := ["X"] }
    operation := fun _ _ _ _ _ => some [{ id := none, name := some "X" }] }

/-- Counterexample to C3 as stated: when an applied patch list marks no
character with the chapter's id (here: it only creates a character and
records no chapter mention), the chapter stays unprocessed, a re-run
re-processes it, and the creation patch mints a *duplicate* character —
the registry after the second run differs from the first. -/
theorem rerun_can_duplicate_characters :
    (runBook demoKbmRepeat [demoChapterOne] ⟨[]⟩ 0).1.characters.map
        (fun c => (c.id, c.name)) = [(0, "X")]
    ∧ (runBook demoKbmRepeat [demoChapterOne]
        (runBook demoKbmRepeat [demoChapterOne] ⟨[]⟩ 0).1
        (runBook demoKbmRepeat [demoChapterOne] ⟨[]⟩ 0).2).1.characters.map
        (fun c => (c.id, c.name)) = [(0, "X"), (1, "X")]
    ∧ (runBook demoKbmRepeat [demoChapterOne]
        (runBook demoKbmRepeat [demoChapterOne] ⟨[]⟩ 0).1
        (runBook demoKbmRepeat [demoChapterOne] ⟨[]⟩ 0).2).1 ≠
      (runBook demoKbmRepeat [demoChapterOne] ⟨[]⟩ 0).1 := by
  refine ⟨rfl, rfl, ?_⟩
  decide

/-- C3 (amended): a chapter counts as processed iff at least one
character's chapter-mentions map contains its id; a processed chapter is
skipped unchanged, so a run over a book all of whose chapters are
already marked leaves the registry (and the id supply) untouched; and
the placeholder fallback only inserts missing chapter keys, hence
re-applying it changes nothing.  Full re-run idempotence however only
holds when every chapter ends up marked — a patch list that marks no
character leaves the chapter unprocessed and a re-run can duplicate
characters, as the counterexample shows. -/
theorem kbm_processed_chapters_are_skipped :
    (∀ (a : CharacterArchive) (cid : String),
      isChapterProcessed a cid = true ↔
        ∃ c ∈ a.characters, dictHasKey c.chapter_mentions cid = true)
    ∧ (∀ (o : KbmOracles) (st : CharacterArchive × Nat) (ch : Chapter),
        isChapterProcessed st.1 (chapterIdOf ch.vol ch.chap) = true →
        processChapter o st ch = st)
    ∧ (∀ (o : KbmOracles) (chapters : List Chapter) (a : CharacterArchive) (fresh : Nat),
        (∀ ch ∈ chapters, isChapterProcessed a (chapterIdOf ch.vol ch.chap) = true) →
        runBook o chapters a fresh = (a, fresh))
    ∧ ∀ (a : CharacterArchive) (ids : List Nat) (cid : String),
        addEmptyMentions (addEmptyMentions a ids cid) ids cid =
          addEmptyMentions a ids cid := by
  have part2 : ∀ (o : KbmOracles) (st : CharacterArchive × Nat) (ch : Chapter),
      isChapterProcessed st.1 (chapterIdOf ch.vol ch.chap) = true →
      processChapter o st ch = st := by
    intro o st ch h
    unfold processChapter
    dsimp only
    rw [h]
    simp
  refine ⟨?_, part2, ?_, ?_⟩
  · intro a cid
    simp [isChapterProcessed, List.any_eq_true]
  · intro o chapters
    induction chapters with
    | nil => intro a fresh _; rfl
    | cons ch chs ih =>
      intro a fresh hall
      have hstep : processChapter o (a, fresh) ch = (a, fresh) :=
        part2 o (a, fresh) ch (hall ch (List.mem_cons_self ch chs))
      calc runBook o (ch :: chs) a fresh
          = runBook o chs a fresh := by
            unfold runBook
            rw [List.foldl_cons, hstep]
        _ = (a, fresh) := ih a fresh (fun c hc => hall c (List.mem_cons_of_mem ch hc))
  · intro a ids cid
    unfold addEmptyMentions
    rw [List.map_map]
    refine congrArg CharacterArchive.mk (List.map_congr_left ?_)
    intro c _
    rw [Function.comp_apply]
    by_cases h : c.id ∈ ids ∧ ¬ dictHasKey c.chapter_mentions cid
    · rw [if_pos h, if_neg]
      intro hcon
      exact hcon.2 (by simp [dictHasKey_set_self])
    · rw [if_neg h, if_neg h]

/-- Witness for the amended C3 theorem: over a registry whose single
character already mentions chapter `vol_1_chap_1`, a run over that
chapter changes nothing, even under the duplicate-minting oracles. -/
theorem kbm_skip_witness :
    runBook demoKbmRepeat [demoChapterOne]
        ⟨[{ id := 0, name := "X", description := "d", spoiler_free_description := "s",
            aliases := [], chapter_mentions := [("vol_1_chap_1", "m")] }]⟩ 7 =
      (⟨[{ id := 0, name := "X", description := "d", spoiler_free_description := "s",
            aliases := [], chapter_mentions := [("vol_1_chap_1", "m")] }]⟩, 7) :=
  kbm_processed_chapters_are_skipped.2.2.1 demoKbmRepeat [demoChapterOne] _ 7
    (by decide)

/-! ### C1: sync-map coverage of the Audio Timeline Assembler -/

theorem mergeWalk_cons (fs : AudioFS) (dir : String)
    (subs : List (String × Option String)) (off clen : Nat) (e : MergeEntry)
    (rest : List MergeEntry) :
    mergeWalk fs dir subs off clen (e :: rest) =
      ((mergeWalk fs dir subs (off + durOf fs dir subs e)
          (clen + durOf fs dir subs e) rest).1,
       { text := e.text, start_ms := off,
         end_ms := off + durOf fs dir subs e, speaker := e.speaker,
         ambient := if e.ambient ≠ "" then e.ambient else "none" } ::
         (mergeWalk fs dir subs (off + durOf fs dir subs e)
           (clen + durOf fs dir subs e) rest).2) := by
  rcases h : fs (resolvePath fs dir (pickFilename subs e)) with _ | od
  · simp [mergeWalk, durOf, segmentDuration, h, gapMs]
  · rcases od with _ | d <;> simp [mergeWalk, durOf, segmentDuration, h, gapMs]

theorem mergeWalk_length (fs : AudioFS) (dir : String)
    (subs : List (String × Option String)) :
    ∀ (es : List MergeEntry) (off clen : Nat),
      (mergeWalk fs dir subs off clen es).2.length = es.length := by
  intro es
  induction es with
  | nil => intro off clen; rfl
  | cons e rest ih =>
    intro off clen
    rw [mergeWalk_cons]
    simp [ih]

theorem mergeWalk_total (fs : AudioFS) (dir : String)
    (subs : List (String × Option String)) :
    ∀ (es : List MergeEntry) (off clen : Nat),
      (mergeWalk fs dir subs off clen es).1 =
        clen + ((mergeWalk fs dir subs off clen es).2.map
          (fun it => it.end_ms - it.start_ms)).sum := by
  intro es
  induction es with
  | nil => intro off clen; rfl
  | cons e rest ih =>
    intro off clen
    rw [mergeWalk_cons]
    simp only [List.map_cons, List.sum_cons]
    rw [ih]
    omega

theorem mergeWalk_chain (fs : AudioFS) (dir : String)
    (subs : List (String × Option String)) :
    ∀ (es : List MergeEntry) (off clen : Nat),
      ((mergeWalk fs dir subs off clen es).2.zip
          (mergeWalk fs dir subs off clen es).2.tail).all
        (fun ab => decide (ab.2.start_ms = ab.1.end_ms)) = true := by
  intro es
  induction es with
  | nil => intro off clen; rfl
  | cons e rest ih =>
    intro off clen
    rcases rest with _ | ⟨r, rs⟩
    · rw [mergeWalk_cons]
      rfl
    · have hcons2 := mergeWalk_cons fs dir subs (off + durOf fs dir subs e)
        (clen + durOf fs dir subs e) r rs
      rw [mergeWalk_cons, hcons2]
      simp only [List.tail_cons, List.zip_cons_cons, List.all_cons, Bool.and_eq_true]
      refine ⟨by simp, ?_⟩
      have hrec := ih (off + durOf fs dir subs e) (clen + durOf fs dir subs e)
      rw [hcons2] at hrec
      simpa using hrec

theorem mergeWalk_spans (fs : AudioFS) (dir : String)
    (subs : List (String × Option String)) :
    ∀ (es : List MergeEntry) (off clen : Nat),
      ((mergeWalk fs dir subs off clen es).2.zip es).all
        (fun p => decide (p.1.end_ms = p.1.start_ms + durOf fs dir subs p.2
            ∧ p.1.text = p.2.text ∧ p.1.speaker = p.2.speaker)
          && (decide (fs (resolvePath fs dir (pickFilename subs p.2)) ≠ none)
            || decide (p.1.end_ms = p.1.start_ms))) = true := by
  intro es
  induction es with
  | nil => intro off clen; rfl
  | cons e rest ih =>
    intro off clen
    rw [mergeWalk_cons]
    simp only [List.zip_cons_cons, List.all_cons, Bool.and_eq_true]
    refine ⟨⟨by decide, ?_⟩,
      by simpa using ih (off + durOf fs dir subs e) (clen + durOf fs dir subs e)⟩
    rcases h : fs (resolvePath fs dir (pickFilename subs e)) with _ | od
    · have hz : durOf fs dir subs e = 0 := by simp [durOf, segmentDuration, h]
      simp [hz]
    · simp [h]

/-- Demo finalized scenario entry (of the real `ScenarioEntry` model). -/
def demoFinalEntry : ScenarioEntry :=
  { type := EntryType.narration, text := "a", speaker := "N" }

/-- Demo merge entry with an id, the shape the merge loop requires. -/
def demoMergeEntry (i t : String) : MergeEntry := { id := i, text := t, speaker := "X" }

/-- Demo audio directory: `A.wav` decodes to 2000 ms, `C.wav` to
1500 ms, nothing else exists (so `B` is unresolvable). -/
def demoAudioFS : AudioFS :=
  fun p => if p = "dir/A.wav" then some (some 2000)
    else if p = "dir/C.wav" then some (some 1500) else none

/-- C1: sync-map coverage.  First two conjuncts: as typed,
`merge_chapter_audio` raises `AttributeError` on every non-empty
finalized scenario (`ScenarioEntry` has no `id` field to read) and only
the degenerate empty scenario returns `(0, [])` — the coverage claim can
only hold for the id-carrying entry shape the loop body was written for.
For that shape (`mergeEntries`), conjunct three proves the claim's
algebra: one sync record per entry in order (with text and speaker
preserved), the sum of all spans equals the returned stream duration,
the first span starts at 0 and each span starts where the previous one
ends (so an unresolved entry — zero-length span — never shifts later
offsets), and every entry whose file does not resolve gets a zero-length
span.  The last conjunct checks the `A=2000ms, B missing, C=1500ms`
example. -/
theorem sync_map_coverage :
    merge_chapter_audio ⟨[demoFinalEntry]⟩ (fun _ => none) "dir" [] =
        Except.error PyError.attributeError
    ∧ merge_chapter_audio ⟨[]⟩ (fun _ => none) "dir" [] = Except.ok (0, [])
    ∧ (∀ (fs : AudioFS) (dir : String) (subs : List (String × Option String))
        (es : List MergeEntry),
        (mergeEntries fs dir subs es).2.length = es.length
        ∧ ((mergeEntries fs dir subs es).2.map
            (fun it => it.end_ms - it.start_ms)).sum = (mergeEntries fs dir subs es).1
        ∧ ((mergeEntries fs dir subs es).2.map (fun it => it.start_ms)).head?.getD 0 = 0
        ∧ ((mergeEntries fs dir subs es).2.zip
            (mergeEntries fs dir subs es).2.tail).all
            (fun ab => decide (ab.2.start_ms = ab.1.end_ms)) = true
        ∧ ((mergeEntries fs dir subs es).2.zip es).all
            (fun p => decide (p.1.end_ms = p.1.start_ms + durOf fs dir subs p.2
                ∧ p.1.text = p.2.text ∧ p.1.speaker = p.2.speaker)
              && (decide (fs (resolvePath fs dir (pickFilename subs p.2)) ≠ none)
                || decide (p.1.end_ms = p.1.start_ms))) = true)
    ∧ mergeEntries demoAudioFS "dir" []
        [demoMergeEntry "A" "ta", demoMergeEntry "B" "tb", demoMergeEntry "C" "tc"] =
      (3500,
       [{ text := "ta", start_ms := 0, end_ms := 2000, speaker := "X", ambient := "none" },
        { text := "tb", start_ms := 2000, end_ms := 2000, speaker := "X", ambient := "none" },
        { text := "tc", start_ms := 2000, end_ms := 3500, speaker := "X", ambient := "none" }]) := by
  refine ⟨rfl, rfl, ?_, by rfl⟩
  intro fs dir subs es
  refine ⟨mergeWalk_length fs dir subs es 0 0, ?_, ?_,
    mergeWalk_chain fs dir subs es 0 0, mergeWalk_spans fs dir subs es 0 0⟩
  · have h := mergeWalk_total fs dir subs es 0 0
    rw [Nat.zero_add] at h
    exact h.symm
  · rcases es with _ | ⟨e, rest⟩
    · rfl
    · rw [mergeEntries, mergeWalk_cons]
      rfl

end BookWeaver
